import Mathlib

/-!
# Borrador backend: disks and partitions HTTP API

A shallow embedding of `backend/main.go`: the two record types, the in-memory
dataset `disks`, and the two HTTP handlers `getDisks` and
`getPartitionsByDisk`, together with the small part of `net/http`,
`encoding/json` and `gorilla/mux` that the handlers drive (a response writer
with a header map, a status line and a body; the JSON documents written to it;
the route variables of a request).

Go strings are modelled by `String`, Go `int` by `Int`.  The dataset holds only
ASCII text and small non-negative numbers, so neither choice loses anything
the handlers can observe.
-/

namespace Borrador

/-! ## Data model (main.go, lines 13-26) -/

/-- Partition record, the Go struct `Partition`.  The Go field `Type` is
spelled `Typ` here because `Type` is reserved. -/
structure Partition where
  Name : String
  SizeKB : Int
  Typ : String
  Fit : String
deriving DecidableEq, Repr

/-- Disk record, the Go struct `Disk`. -/
structure Disk where
  Letter : String
  SizeMB : Int
  Partitions : List Partition
deriving DecidableEq, Repr

/-! ## The dataset (main.go, lines 29-84) -/

/-- The in-memory database: the package-level variable `disks`.  Nothing in the
program assigns to it after initialisation. -/
def disks : List Disk :=
  [ { Letter := "A", SizeMB := 10,
      Partitions :=
        [ ⟨"A1", 1000, "P", "FF"⟩,
          ⟨"A2", 1500, "P", "WF"⟩,
          ⟨"A3", 1200, "P", "BF"⟩,
          ⟨"A4", 800, "P", "FF"⟩ ] },
    { Letter := "B", SizeMB := 15,
      Partitions :=
        [ ⟨"B1", 2000, "P", "BF"⟩,
          ⟨"B2", 1000, "P", "FF"⟩,
          ⟨"B3", 500, "P", "WF"⟩,
          ⟨"B4", 2500, "P", "FF"⟩ ] },
    { Letter := "C", SizeMB := 20,
      Partitions :=
        [ ⟨"C1", 3000, "P", "FF"⟩,
          ⟨"C2", 1500, "P", "WF"⟩,
          ⟨"CEXT", 4000, "E", "BF"⟩ ] },
    { Letter := "D", SizeMB := 25,
      Partitions :=
        [ ⟨"D1", 3500, "P", "BF"⟩,
          ⟨"D2", 2000, "P", "WF"⟩,
          ⟨"DEXT", 5000, "E", "FF"⟩ ] },
    { Letter := "E", SizeMB := 20,
      Partitions :=
        [ ⟨"E1", 3000, "P", "FF"⟩,
          ⟨"EEXT", 1500, "E", "WF"⟩ ] },
    { Letter := "F", SizeMB := 25,
      Partitions :=
        [ ⟨"F1", 3000, "P", "FF"⟩,
          ⟨"F2", 1500, "P", "WF"⟩ ] } ]

/-! ## JSON documents (what `encoding/json` writes) -/

/-- JSON value.  An object keeps its members in the order they are written. -/
inductive Json where
  | null : Json
  | num : Int → Json
  | str : String → Json
  | arr : List Json → Json
  | obj : List (String × Json) → Json

/-- Encoding of one `Partition`: struct fields in declaration order under the
keys of their `json:"..."` tags. -/
def marshalPartition (p : Partition) : Json :=
  Json.obj
    [ ("name", Json.str p.Name),
      ("sizeKB", Json.num p.SizeKB),
      ("type", Json.str p.Typ),
      ("fit", Json.str p.Fit) ]

/-- Encoding of a `[]Partition` value: a JSON array, elements in slice order. -/
def marshalPartitions (ps : List Partition) : Json :=
  Json.arr (ps.map marshalPartition)

/-- Encoding of one `Disk`. -/
def marshalDisk (d : Disk) : Json :=
  Json.obj
    [ ("letter", Json.str d.Letter),
      ("sizeMB", Json.num d.SizeMB),
      ("partitions", marshalPartitions d.Partitions) ]

/-- Encoding of a `[]Disk` value. -/
def marshalDisks (ds : List Disk) : Json :=
  Json.arr (ds.map marshalDisk)

/-- Encoding of a `map[string]string`: an object whose members are sorted by
key, as `encoding/json` does for maps. -/
def marshalStringMap (m : List (String × String)) : Json :=
  Json.obj ((m.insertionSort (fun a b => a.1 ≤ b.1)).map (fun kv => (kv.1, Json.str kv.2)))

/-! ## The response writer (`http.ResponseWriter`) -/

/-- Header map, `http.Header`: each key maps to a list of values. -/
abbrev Header := List (String × List String)

/-- `Header.Set`: replaces whatever is stored under the key by the single value.
The key the handlers use, `Content-Type`, is already in canonical MIME form. -/
def Header.Set (h : Header) (key value : String) : Header :=
  (key, [value]) :: h.filter (fun kv => kv.1 != key)

/-- `Header.Get`: the first value stored under the key, or the empty string. -/
def Header.Get (h : Header) (key : String) : String :=
  match h.lookup key with
  | some (v :: _) => v
  | _ => ""

/-- State of a response: the live header map, whether the status line has been
written, the status code, the headers as they were sent with the status line,
and the JSON documents written to the body so far. -/
structure ResponseWriter where
  header : Header
  wroteHeader : Bool
  status : Nat
  sent : Header
  body : List Json

/-- A response on which nothing has been written yet; `h` holds the headers an
outer handler (here the CORS middleware) may have set already. -/
def ResponseWriter.fresh (h : Header) : ResponseWriter :=
  { header := h, wroteHeader := false, status := 0, sent := [], body := [] }

/-- The call `w.Header().Set(key, value)`. -/
def ResponseWriter.HeaderSet (w : ResponseWriter) (key value : String) : ResponseWriter :=
  { w with header := w.header.Set key value }

/-- The call `w.WriteHeader(code)`: sends the status line with the current
headers; a second call changes nothing. -/
def ResponseWriter.WriteHeader (w : ResponseWriter) (code : Nat) : ResponseWriter :=
  if w.wroteHeader then w
  else { w with wroteHeader := true, status := code, sent := w.header }

/-- The call `w.Write(data)`: a write before any `WriteHeader` first sends
status 200. -/
def ResponseWriter.Write (w : ResponseWriter) (doc : Json) : ResponseWriter :=
  let w1 := if w.wroteHeader then w else w.WriteHeader 200
  { w1 with body := w1.body ++ [doc] }

/-- The call `json.NewEncoder(w).Encode(v)` with `v` already turned into its
JSON document: one document is written to the response.  How the library
renders the document as bytes (it ends each with a newline) is not modelled. -/
def jsonEncode (w : ResponseWriter) (doc : Json) : ResponseWriter :=
  w.Write doc

/-! ## Requests (`http.Request` with `gorilla/mux` route variables) -/

/-- The part of a request the handlers read: its route variables. -/
structure Request where
  vars : List (String × String)

/-- The call `mux.Vars(r)`. -/
def muxVars (r : Request) : List (String × String) :=
  r.vars

/-- Go map indexing `m[key]` on a `map[string]string`: the zero value `""` when
the key is absent. -/
def mapIndex (m : List (String × String)) (key : String) : String :=
  (m.lookup key).getD ""

/-! ## Handlers (main.go, lines 88-118) -/

/-- Handler `getDisks`. -/
def getDisks (w : ResponseWriter) (_r : Request) : ResponseWriter :=
  let w := w.HeaderSet "Content-Type" "application/json"
  jsonEncode w (marshalDisks disks)

/-- The `for _, d := range disks` loop of `getPartitionsByDisk`: `some` of the
response when an iteration returns, `none` when the loop runs to its end. -/
def getPartitionsByDisk.loop (w : ResponseWriter) (letter : String) :
    List Disk → Option ResponseWriter
  | [] => none
  | d :: rest =>
    if d.Letter == letter then
      some (jsonEncode w (marshalPartitions d.Partitions))
    else
      getPartitionsByDisk.loop w letter rest

/-- Handler `getPartitionsByDisk`. -/
def getPartitionsByDisk (w : ResponseWriter) (r : Request) : ResponseWriter :=
  let w := w.HeaderSet "Content-Type" "application/json"
  let params := muxVars r
  let letter := mapIndex params "letter"
  match getPartitionsByDisk.loop w letter disks with
  | some done => done
  | none =>
    let w := w.WriteHeader 404
    jsonEncode w (marshalStringMap [("error", "Disco no encontrado")])

/-! ## Vocabulary used by the statements -/

/-- The letter a request asks for: what the handler binds to `letter`. -/
def requestLetter (r : Request) : String :=
  mapIndex (muxVars r) "letter"

/-- A request whose route variable `letter` is `s`, as the router builds it for
the path `/api/discos/s/particiones`. -/
def Request.ofLetter (s : String) : Request :=
  { vars := [("letter", s)] }

/-- The error document of the not-found branch. -/
def notFoundDoc : Json :=
  Json.obj [("error", Json.str "Disco no encontrado")]

/-- Sum of the `SizeKB` of a disk's partitions. -/
def partitionSumKB (d : Disk) : Int :=
  (d.Partitions.map (fun p => p.SizeKB)).sum

/-- The response of the success branch for disk `d`, started from headers `h`. -/
def okResponse (h : Header) (d : Disk) : ResponseWriter :=
  { header := h.Set "Content-Type" "application/json",
    wroteHeader := true,
    status := 200,
    sent := h.Set "Content-Type" "application/json",
    body := [marshalPartitions d.Partitions] }

/-- The response of the not-found branch, started from headers `h`. -/
def notFoundResponse (h : Header) : ResponseWriter :=
  { header := h.Set "Content-Type" "application/json",
    wroteHeader := true,
    status := 404,
    sent := h.Set "Content-Type" "application/json",
    body := [notFoundDoc] }

/-! ## Helper lemmas -/

theorem loop_eq_find (w : ResponseWriter) (letter : String) (ds : List Disk) :
    getPartitionsByDisk.loop w letter ds =
      (ds.find? (fun d => d.Letter == letter)).map
        (fun d => jsonEncode w (marshalPartitions d.Partitions)) := by
  induction ds with
  | nil => rfl
  | cons d rest ih =>
    by_cases hd : d.Letter = letter
    · simp [getPartitionsByDisk.loop, hd]
    · simp [getPartitionsByDisk.loop, hd, ih]

theorem marshalPartition_injective : Function.Injective marshalPartition := by
  intro p q h
  cases p; cases q
  simp [marshalPartition] at h
  simp [h]

theorem marshalPartitions_injective : Function.Injective marshalPartitions := by
  intro ps qs h
  simp only [marshalPartitions, Json.arr.injEq] at h
  exact List.map_injective_iff.mpr marshalPartition_injective h

theorem marshalPartitions_ne_notFoundDoc (ps : List Partition) :
    marshalPartitions ps ≠ notFoundDoc := by
  simp [marshalPartitions, notFoundDoc]

theorem marshalStringMap_error :
    marshalStringMap [("error", "Disco no encontrado")] = notFoundDoc := by
  simp [marshalStringMap, notFoundDoc]

theorem getPartitionsByDisk_of_find_some (h : Header) (r : Request) (d : Disk)
    (hf : disks.find? (fun d => d.Letter == requestLetter r) = some d) :
    getPartitionsByDisk (ResponseWriter.fresh h) r = okResponse h d := by
  unfold requestLetter at hf
  simp only [getPartitionsByDisk, loop_eq_find, hf, Option.map_some']
  rfl

theorem getPartitionsByDisk_of_find_none (h : Header) (r : Request)
    (hf : disks.find? (fun d => d.Letter == requestLetter r) = none) :
    getPartitionsByDisk (ResponseWriter.fresh h) r = notFoundResponse h := by
  unfold requestLetter at hf
  simp only [getPartitionsByDisk, loop_eq_find, hf, Option.map_none', marshalStringMap_error]
  rfl

theorem getPartitionsByDisk_cases (h : Header) (r : Request) :
    (∃ d, disks.find? (fun d => d.Letter == requestLetter r) = some d ∧
        getPartitionsByDisk (ResponseWriter.fresh h) r = okResponse h d) ∨
    (disks.find? (fun d => d.Letter == requestLetter r) = none ∧
        getPartitionsByDisk (ResponseWriter.fresh h) r = notFoundResponse h) := by
  cases hf : disks.find? (fun d => d.Letter == requestLetter r) with
  | none => exact Or.inr ⟨rfl, getPartitionsByDisk_of_find_none h r hf⟩
  | some d => exact Or.inl ⟨d, rfl, getPartitionsByDisk_of_find_some h r d hf⟩

theorem mem_letters_iff (s : String) :
    (∃ d ∈ disks, d.Letter = s) ↔ s ∈ ["A", "B", "C", "D", "E", "F"] := by
  simp [disks, eq_comm]

theorem requestLetter_ofLetter (s : String) : requestLetter (Request.ofLetter s) = s := by
  simp [requestLetter, Request.ofLetter, muxVars, mapIndex, List.lookup]

theorem loop_first_match (w : ResponseWriter) (letter : String) (ds : List Disk)
    (hex : ∃ d ∈ ds, d.Letter = letter) :
    ∃ i : Fin ds.length,
      (ds.get i).Letter = letter ∧
      (∀ j : Fin ds.length, j < i → (ds.get j).Letter ≠ letter) ∧
      getPartitionsByDisk.loop w letter ds =
        some (jsonEncode w (marshalPartitions (ds.get i).Partitions)) := by
  induction ds with
  | nil => simp at hex
  | cons d rest ih =>
    by_cases hd : d.Letter = letter
    · refine ⟨⟨0, by simp⟩, by simpa using hd, ?_, by simp [getPartitionsByDisk.loop, hd]⟩
      intro j hj
      exact absurd hj (Nat.not_lt_zero _)
    · have hrest : ∃ e ∈ rest, e.Letter = letter := by
        obtain ⟨e, he, hel⟩ := hex
        rcases List.mem_cons.mp he with rfl | he
        · exact absurd hel hd
        · exact ⟨e, he, hel⟩
      obtain ⟨i, hi1, hi2, hi3⟩ := ih hrest
      refine ⟨i.succ, by simpa using hi1, ?_, by simpa [getPartitionsByDisk.loop, hd] using hi3⟩
      intro j hj
      refine Fin.cases ?_ (fun k hk => ?_) j hj
      · intro _; simpa using hd
      · have := hi2 k (by simpa using hk)
        simpa using this

theorem loop_eq_none_iff (w : ResponseWriter) (letter : String) (ds : List Disk) :
    getPartitionsByDisk.loop w letter ds = none ↔ ∀ d ∈ ds, d.Letter ≠ letter := by
  simp [loop_eq_find]

theorem marshalDisk_injective : Function.Injective marshalDisk := by
  intro d e h
  cases d; cases e
  simp only [marshalDisk, Json.obj.injEq, List.cons.injEq, Prod.mk.injEq, Json.str.injEq,
    Json.num.injEq, true_and, and_true] at h
  obtain ⟨h1, h2, h3⟩ := h
  simp [h1, h2, marshalPartitions_injective h3]

theorem marshalDisks_injective : Function.Injective marshalDisks := by
  intro ds es h
  simp only [marshalDisks, Json.arr.injEq] at h
  exact List.map_injective_iff.mpr marshalDisk_injective h

theorem getDisks_eq (h : Header) (r : Request) :
    getDisks (ResponseWriter.fresh h) r =
      { header := h.Set "Content-Type" "application/json",
        wroteHeader := true,
        status := 200,
        sent := h.Set "Content-Type" "application/json",
        body := [marshalDisks disks] } := rfl

theorem find_none_iff (s : String) :
    disks.find? (fun d => d.Letter == s) = none ↔ ∀ d ∈ disks, d.Letter ≠ s := by
  simp

theorem find_some_mem (s : String) (d : Disk)
    (hf : disks.find? (fun d => d.Letter == s) = some d) : d ∈ disks ∧ d.Letter = s := by
  refine ⟨List.mem_of_find?_eq_some hf, ?_⟩
  simpa using List.find?_some hf

theorem header_lookup_set (h : Header) (k v : String) :
    (h.Set k v).lookup k = some [v] := by
  simp [Header.Set, List.lookup]

theorem header_get_set (h : Header) (k v : String) : (h.Set k v).Get k = v := by
  simp [Header.Get, header_lookup_set]

theorem partitions_determine_disk :
    ∀ i k : Fin disks.length, (disks.get i).Partitions = (disks.get k).Partitions → i = k := by
  decide

theorem dataset_partitions_nonempty : ∀ d ∈ disks, d.Partitions ≠ [] := by
  decide

theorem dataset_in_domain :
    ∀ d ∈ disks, ∀ p ∈ d.Partitions,
      0 < p.SizeKB ∧ (p.Typ = "P" ∨ p.Typ = "E") ∧
        (p.Fit = "FF" ∨ p.Fit = "WF" ∨ p.Fit = "BF") := by
  decide

theorem dataset_sums_within_capacity :
    ∀ d ∈ disks, partitionSumKB d ≤ d.SizeMB * 1000 ∧ partitionSumKB d ≤ d.SizeMB * 1024 := by
  decide

theorem not_found_iff (h : Header) (r : Request) :
    ((getPartitionsByDisk (ResponseWriter.fresh h) r).status = 404 ∧
        (getPartitionsByDisk (ResponseWriter.fresh h) r).body =
          [Json.obj [("error", Json.str "Disco no encontrado")]]) ↔
      ∀ d ∈ disks, d.Letter ≠ requestLetter r := by
  rcases getPartitionsByDisk_cases h r with ⟨d, hf, hw⟩ | ⟨hf, hw⟩
  · have hd := find_some_mem _ d hf
    rw [hw]
    constructor
    · intro hc
      exact absurd hc.1 (by simp [okResponse])
    · intro hall
      exact absurd hd.2 (hall d hd.1)
  · rw [hw]
    exact ⟨fun _ => (find_none_iff _).mp hf, fun _ => ⟨rfl, rfl⟩⟩

theorem ok_iff (h : Header) (r : Request) :
    ((getPartitionsByDisk (ResponseWriter.fresh h) r).status = 200 ∧
        Json.obj [("error", Json.str "Disco no encontrado")] ∉
          (getPartitionsByDisk (ResponseWriter.fresh h) r).body) ↔
      ∃ d ∈ disks, d.Letter = requestLetter r := by
  rcases getPartitionsByDisk_cases h r with ⟨d, hf, hw⟩ | ⟨hf, hw⟩
  · have hd := find_some_mem _ d hf
    rw [hw]
    refine ⟨fun _ => ⟨d, hd⟩, fun _ => ⟨rfl, ?_⟩⟩
    have := marshalPartitions_ne_notFoundDoc d.Partitions
    simpa [okResponse, notFoundDoc, eq_comm] using this
  · rw [hw]
    constructor
    · intro hc
      exact absurd hc.1 (by simp [notFoundResponse])
    · rintro ⟨d, hd, hl⟩
      exact absurd hl ((find_none_iff _).mp hf d hd)

theorem absent_iff (s : String) :
    (∀ d ∈ disks, d.Letter ≠ s) ↔ s ∉ ["A", "B", "C", "D", "E", "F"] := by
  rw [← mem_letters_iff]; simp

/-! ## Claims -/

/-- C1: for every request, `getPartitionsByDisk` answers not-found (status 404,
body exactly the one document with the single key `error` and value
`Disco no encontrado`) if and only if no disk of the dataset has the requested
letter, which holds if and only if the letter is none of A, B, C, D, E, F;
otherwise the status is 200 and the error document is not written.  The
requested letter is the route variable `letter` of the request (the empty
string when there is none).  On the request whose route variable `letter` is
`s`: not-found if and only if `s` is none of A, B, C, D, E, F, and status 200
without the error document for each of these six.  The letters `a`, the empty
string, `AB` and `X` are all not-found. -/
theorem C1_not_found_iff_letter_absent (h : Header) (r : Request) :
    (((getPartitionsByDisk (ResponseWriter.fresh h) r).status = 404 ∧
        (getPartitionsByDisk (ResponseWriter.fresh h) r).body =
          [Json.obj [("error", Json.str "Disco no encontrado")]]) ↔
      ∀ d ∈ disks, d.Letter ≠ requestLetter r) ∧
    ((∀ d ∈ disks, d.Letter ≠ requestLetter r) ↔
      requestLetter r ∉ ["A", "B", "C", "D", "E", "F"]) ∧
    (((getPartitionsByDisk (ResponseWriter.fresh h) r).status = 200 ∧
        Json.obj [("error", Json.str "Disco no encontrado")] ∉
          (getPartitionsByDisk (ResponseWriter.fresh h) r).body) ↔
      ∃ d ∈ disks, d.Letter = requestLetter r) ∧
    (∀ s ∈ ["a", "", "AB", "X"],
      (getPartitionsByDisk (ResponseWriter.fresh h) (Request.ofLetter s)).status = 404 ∧
      (getPartitionsByDisk (ResponseWriter.fresh h) (Request.ofLetter s)).body =
        [Json.obj [("error", Json.str "Disco no encontrado")]]) ∧
    requestLetter r = (r.vars.lookup "letter").getD "" ∧
    (∀ s : String,
      ((getPartitionsByDisk (ResponseWriter.fresh h) (Request.mk [("letter", s)])).status = 404 ∧
        (getPartitionsByDisk (ResponseWriter.fresh h) (Request.mk [("letter", s)])).body =
          [Json.obj [("error", Json.str "Disco no encontrado")]]) ↔
      s ∉ ["A", "B", "C", "D", "E", "F"]) ∧
    (∀ s ∈ ["A", "B", "C", "D", "E", "F"],
      (getPartitionsByDisk (ResponseWriter.fresh h) (Request.mk [("letter", s)])).status = 200 ∧
      (getPartitionsByDisk (ResponseWriter.fresh h) (Request.mk [("letter", s)])).wroteHeader
        = true ∧
      Json.obj [("error", Json.str "Disco no encontrado")] ∉
        (getPartitionsByDisk (ResponseWriter.fresh h) (Request.mk [("letter", s)])).body) ∧
    ((getPartitionsByDisk (ResponseWriter.fresh h) (Request.mk [])).status = 404 ∧
      (getPartitionsByDisk (ResponseWriter.fresh h) (Request.mk [("letter", "A")])).status = 200 ∧
      (getPartitionsByDisk (ResponseWriter.fresh h) (Request.mk [("letter", "F")])).status = 200 ∧
      (getPartitionsByDisk (ResponseWriter.fresh h) (Request.mk [("letter", "f")])).status = 404 ∧
      (getPartitionsByDisk (ResponseWriter.fresh h)
        (Request.mk [("disk", "A"), ("letter", "Z")])).status = 404) := by
  have hmk : ∀ s : String, requestLetter (Request.mk [("letter", s)]) = s :=
    requestLetter_ofLetter
  refine ⟨not_found_iff h r, absent_iff _, ok_iff h r, ?_, rfl, ?_, ?_, ?_⟩
  · intro s hs
    have hf : disks.find? (fun d => d.Letter == requestLetter (Request.ofLetter s)) = none := by
      rw [requestLetter_ofLetter, find_none_iff]
      intro d hd hl
      have hmem := (mem_letters_iff s).mp ⟨d, hd, hl⟩
      clear hl
      revert hmem
      revert s
      decide
    rw [getPartitionsByDisk_of_find_none h _ hf]
    exact ⟨rfl, rfl⟩
  · intro s
    have h1 := not_found_iff h (Request.mk [("letter", s)])
    have h2 := absent_iff (requestLetter (Request.mk [("letter", s)]))
    rw [hmk s] at h1 h2
    exact h1.trans h2
  · intro s hs
    have h1 := ok_iff h (Request.mk [("letter", s)])
    rw [hmk s] at h1
    have h2 := h1.mpr ((mem_letters_iff s).mpr hs)
    refine ⟨h2.1, ?_, h2.2⟩
    rcases getPartitionsByDisk_cases h (Request.mk [("letter", s)]) with ⟨d, -, hw⟩ | ⟨-, hw⟩
    · rw [hw]; rfl
    · rw [hw]; rfl
  · refine ⟨?_, ?_, ?_, ?_, ?_⟩
    · rw [getPartitionsByDisk_of_find_none h _ (by decide)]; rfl
    · exact ((ok_iff h _).mpr (by decide)).1
    · exact ((ok_iff h _).mpr (by decide)).1
    · rw [getPartitionsByDisk_of_find_none h _ (by decide)]; rfl
    · rw [getPartitionsByDisk_of_find_none h _ (by decide)]; rfl

/-- C2: when the requested letter is the letter of some disk, the response of
`getPartitionsByDisk` is status 200 with exactly one document, the partition
array of the first disk in dataset order carrying that letter; the partition
array of no other position of the dataset is written. -/
theorem C2_first_match_partitions (h : Header) (r : Request)
    (hex : ∃ d ∈ disks, d.Letter = requestLetter r) :
    ∃ i : Fin disks.length,
      (disks.get i).Letter = requestLetter r ∧
      (∀ j : Fin disks.length, j < i → (disks.get j).Letter ≠ requestLetter r) ∧
      (getPartitionsByDisk (ResponseWriter.fresh h) r).status = 200 ∧
      (getPartitionsByDisk (ResponseWriter.fresh h) r).body =
        [marshalPartitions (disks.get i).Partitions] ∧
      (∀ k : Fin disks.length, k ≠ i →
        marshalPartitions (disks.get k).Partitions ∉
          (getPartitionsByDisk (ResponseWriter.fresh h) r).body) := by
  obtain ⟨i, hi1, hi2, hi3⟩ :=
    loop_first_match ((ResponseWriter.fresh h).HeaderSet "Content-Type" "application/json")
      (requestLetter r) disks hex
  have hw : getPartitionsByDisk (ResponseWriter.fresh h) r =
      jsonEncode ((ResponseWriter.fresh h).HeaderSet "Content-Type" "application/json")
        (marshalPartitions (disks.get i).Partitions) := by
    unfold requestLetter at hi3
    simp only [getPartitionsByDisk, hi3]
  refine ⟨i, hi1, hi2, ?_, ?_, ?_⟩
  · rw [hw]; rfl
  · rw [hw]; rfl
  · intro k hk hmem
    rw [hw] at hmem
    have hbody : (jsonEncode ((ResponseWriter.fresh h).HeaderSet "Content-Type" "application/json")
        (marshalPartitions (disks.get i).Partitions)).body =
        [marshalPartitions (disks.get i).Partitions] := rfl
    rw [hbody, List.mem_singleton] at hmem
    exact hk (partitions_determine_disk k i (marshalPartitions_injective hmem))

/-- C2 at a concrete input: the letter `B` is found at position 1. -/
theorem C2_first_match_partitions_witness :
    (∃ d ∈ disks, d.Letter = requestLetter (Request.ofLetter "B")) ∧
    ∃ i : Fin disks.length,
      (disks.get i).Letter = requestLetter (Request.ofLetter "B") ∧
      (∀ j : Fin disks.length, j < i →
        (disks.get j).Letter ≠ requestLetter (Request.ofLetter "B")) ∧
      (getPartitionsByDisk (ResponseWriter.fresh []) (Request.ofLetter "B")).status = 200 ∧
      (getPartitionsByDisk (ResponseWriter.fresh []) (Request.ofLetter "B")).body =
        [marshalPartitions (disks.get i).Partitions] ∧
      (∀ k : Fin disks.length, k ≠ i →
        marshalPartitions (disks.get k).Partitions ∉
          (getPartitionsByDisk (ResponseWriter.fresh []) (Request.ofLetter "B")).body) :=
  ⟨by decide, C2_first_match_partitions [] (Request.ofLetter "B") (by decide)⟩

/-- C3: `getDisks` answers status 200 with exactly one document, the encoding
of the whole dataset (which decodes to no other disk list); the dataset has 6
disks with letters A, B, C, D, E, F in this order, sizes 10, 15, 20, 25, 20, 25
and 4, 4, 3, 3, 2, 2 partitions; the response does not depend on the request,
so two calls give equal results. -/
theorem C3_getDisks_whole_dataset (h : Header) (r : Request) :
    (getDisks (ResponseWriter.fresh h) r).status = 200 ∧
    (getDisks (ResponseWriter.fresh h) r).body = [marshalDisks disks] ∧
    (∀ ds : List Disk,
      (getDisks (ResponseWriter.fresh h) r).body = [marshalDisks ds] → ds = disks) ∧
    disks.length = 6 ∧
    disks.map (fun d => d.Letter) = ["A", "B", "C", "D", "E", "F"] ∧
    disks.map (fun d => d.SizeMB) = [10, 15, 20, 25, 20, 25] ∧
    disks.map (fun d => d.Partitions.length) = [4, 4, 3, 3, 2, 2] ∧
    (∀ r2 : Request,
      getDisks (ResponseWriter.fresh h) r2 = getDisks (ResponseWriter.fresh h) r) := by
  refine ⟨rfl, rfl, ?_, rfl, rfl, rfl, rfl, fun _ => rfl⟩
  intro ds hds
  rw [getDisks_eq] at hds
  simp only [List.cons.injEq, and_true] at hds
  exact (marshalDisks_injective hds).symm

/-- C4: for each of the letters A, B, C, D, E, F, `getPartitionsByDisk` answers
status 200 with one document: a non-empty JSON array, with one object per
partition of the dataset disk with the requested letter, in order, each object
with exactly the keys name, sizeKB, type, fit holding that partition's fields.
The partition list is non-empty and is the only list the document encodes. -/
theorem C4_six_letters_succeed (s : String) (hs : s ∈ ["A", "B", "C", "D", "E", "F"])
    (h : Header) (r : Request) (hr : requestLetter r = s) :
    (getPartitionsByDisk (ResponseWriter.fresh h) r).status = 200 ∧
    ∃ ps : List Partition, ps ≠ [] ∧
      (getPartitionsByDisk (ResponseWriter.fresh h) r).body = [marshalPartitions ps] ∧
      (∃ d ∈ disks, d.Letter = s ∧ d.Partitions = ps) ∧
      (∀ qs : List Partition,
        (getPartitionsByDisk (ResponseWriter.fresh h) r).body = [marshalPartitions qs] →
          qs = ps) ∧
      ∃ xs : List Json, xs ≠ [] ∧ 0 < xs.length ∧ xs.length = ps.length ∧
        (getPartitionsByDisk (ResponseWriter.fresh h) r).body = [Json.arr xs] ∧
        xs = ps.map (fun p =>
          Json.obj [("name", Json.str p.Name), ("sizeKB", Json.num p.SizeKB),
            ("type", Json.str p.Typ), ("fit", Json.str p.Fit)]) := by
  subst hr
  rcases getPartitionsByDisk_cases h r with ⟨d, hf, hw⟩ | ⟨hf, hw⟩
  · have hd := find_some_mem _ d hf
    have hne := dataset_partitions_nonempty d hd.1
    rw [hw]
    refine ⟨rfl, d.Partitions, hne, rfl, ⟨d, hd.1, hd.2, rfl⟩, ?_, ?_⟩
    · intro qs hqs
      simp only [okResponse, List.cons.injEq, and_true] at hqs
      exact (marshalPartitions_injective hqs).symm
    · refine ⟨d.Partitions.map marshalPartition, ?_, ?_, ?_, rfl, rfl⟩
      · simpa using hne
      · simpa using List.length_pos.mpr hne
      · simp
  · obtain ⟨d, hd, hl⟩ := (mem_letters_iff _).mpr hs
    exact absurd hl ((find_none_iff _).mp hf d hd)

/-- C4 at a concrete input: for the letter `E` the body is the array of the two
objects of E1 and EEXT. -/
theorem C4_six_letters_succeed_witness :
    "E" ∈ ["A", "B", "C", "D", "E", "F"] ∧
    requestLetter (Request.mk [("letter", "E")]) = "E" ∧
    (getPartitionsByDisk (ResponseWriter.fresh []) (Request.mk [("letter", "E")])).body =
      [Json.arr
        [ Json.obj [("name", Json.str "E1"), ("sizeKB", Json.num 3000),
            ("type", Json.str "P"), ("fit", Json.str "FF")],
          Json.obj [("name", Json.str "EEXT"), ("sizeKB", Json.num 1500),
            ("type", Json.str "E"), ("fit", Json.str "WF")] ]] ∧
    (getPartitionsByDisk (ResponseWriter.fresh []) (Request.mk [("letter", "E")])).status = 200 ∧
    ∃ ps : List Partition, ps ≠ [] ∧
      (getPartitionsByDisk (ResponseWriter.fresh []) (Request.mk [("letter", "E")])).body =
        [marshalPartitions ps] ∧
      (∃ d ∈ disks, d.Letter = "E" ∧ d.Partitions = ps) ∧
      (∀ qs : List Partition,
        (getPartitionsByDisk (ResponseWriter.fresh []) (Request.mk [("letter", "E")])).body =
            [marshalPartitions qs] →
          qs = ps) ∧
      ∃ xs : List Json, xs ≠ [] ∧ 0 < xs.length ∧ xs.length = ps.length ∧
        (getPartitionsByDisk (ResponseWriter.fresh []) (Request.mk [("letter", "E")])).body =
          [Json.arr xs] ∧
        xs = ps.map (fun p =>
          Json.obj [("name", Json.str p.Name), ("sizeKB", Json.num p.SizeKB),
            ("type", Json.str p.Typ), ("fit", Json.str p.Fit)]) :=
  ⟨by decide, by decide, rfl,
    C4_six_letters_succeed "E" (by decide) [] (Request.mk [("letter", "E")]) (by decide)⟩

/-- C5: for the letter `C`, `getPartitionsByDisk` answers status 200 and one
document, the array of the three objects (name C1, sizeKB 3000, type P, fit FF),
(name C2, sizeKB 1500, type P, fit WF), (name CEXT, sizeKB 4000, type E, fit BF),
each with the keys name, sizeKB, type, fit in this order. -/
theorem C5_letter_C_partitions (h : Header) (r : Request) (hr : requestLetter r = "C") :
    (getPartitionsByDisk (ResponseWriter.fresh h) r).status = 200 ∧
    (getPartitionsByDisk (ResponseWriter.fresh h) r).body =
      [Json.arr
        [ Json.obj [("name", Json.str "C1"), ("sizeKB", Json.num 3000),
            ("type", Json.str "P"), ("fit", Json.str "FF")],
          Json.obj [("name", Json.str "C2"), ("sizeKB", Json.num 1500),
            ("type", Json.str "P"), ("fit", Json.str "WF")],
          Json.obj [("name", Json.str "CEXT"), ("sizeKB", Json.num 4000),
            ("type", Json.str "E"), ("fit", Json.str "BF")] ]] := by
  have hf : disks.find? (fun d => d.Letter == requestLetter r) =
      some ⟨"C", 20, [⟨"C1", 3000, "P", "FF"⟩, ⟨"C2", 1500, "P", "WF"⟩,
        ⟨"CEXT", 4000, "E", "BF"⟩]⟩ := by
    rw [hr]; decide
  rw [getPartitionsByDisk_of_find_some h r _ hf]
  exact ⟨rfl, rfl⟩

/-- C5 at a concrete input: the request built for the path with letter `C`. -/
theorem C5_letter_C_partitions_witness :
    requestLetter (Request.ofLetter "C") = "C" ∧
    (getPartitionsByDisk (ResponseWriter.fresh []) (Request.ofLetter "C")).status = 200 ∧
    (getPartitionsByDisk (ResponseWriter.fresh []) (Request.ofLetter "C")).body =
      [Json.arr
        [ Json.obj [("name", Json.str "C1"), ("sizeKB", Json.num 3000),
            ("type", Json.str "P"), ("fit", Json.str "FF")],
          Json.obj [("name", Json.str "C2"), ("sizeKB", Json.num 1500),
            ("type", Json.str "P"), ("fit", Json.str "WF")],
          Json.obj [("name", Json.str "CEXT"), ("sizeKB", Json.num 4000),
            ("type", Json.str "E"), ("fit", Json.str "BF")] ]] :=
  ⟨by decide, C5_letter_C_partitions [] (Request.ofLetter "C") (by decide)⟩

/-- C6: the letters of the dataset are pairwise distinct (no two positions of
`disks` hold the same letter), every letter is a single character, and so a
request for the letter at any position of the dataset is answered with that
position's partitions: the first-match scan shadows no disk. -/
theorem C6_letters_unique :
    (disks.map (fun d => d.Letter)).Nodup ∧
    (∀ i j : Fin disks.length, (disks.get i).Letter = (disks.get j).Letter → i = j) ∧
    (∀ d ∈ disks, d.Letter.length = 1) ∧
    (∀ (h : Header) (r : Request) (i : Fin disks.length),
      requestLetter r = (disks.get i).Letter →
        (getPartitionsByDisk (ResponseWriter.fresh h) r).status = 200 ∧
        (getPartitionsByDisk (ResponseWriter.fresh h) r).body =
          [marshalPartitions (disks.get i).Partitions]) := by
  have huniq : ∀ i j : Fin disks.length,
      (disks.get i).Letter = (disks.get j).Letter → i = j := by decide
  refine ⟨by decide, huniq, by decide, ?_⟩
  intro h r i hri
  obtain ⟨k, hk1, -, hk3⟩ :=
    loop_first_match ((ResponseWriter.fresh h).HeaderSet "Content-Type" "application/json")
      (requestLetter r) disks ⟨disks.get i, List.get_mem _ _ _, hri.symm⟩
  have hki : k = i := huniq k i (hk1.trans hri)
  subst hki
  have hw : getPartitionsByDisk (ResponseWriter.fresh h) r =
      jsonEncode ((ResponseWriter.fresh h).HeaderSet "Content-Type" "application/json")
        (marshalPartitions (disks.get k).Partitions) := by
    unfold requestLetter at hk3
    simp only [getPartitionsByDisk, hk3]
  rw [hw]
  exact ⟨rfl, rfl⟩

/-- C7 as stated fails: no disk of the dataset has partitions whose sizes sum
to more than its capacity in kilobytes, under either conversion. -/
theorem C7_no_disk_exceeds_capacity :
    ¬ ∃ d ∈ disks,
      d.SizeMB * 1024 < partitionSumKB d ∨ d.SizeMB * 1000 < partitionSumKB d := by
  decide

/-- C7 amended: every disk of the dataset satisfies the bound: the sum of its
partitions' sizeKB is at most its capacity in kilobytes, both as sizeMB × 1000
and as sizeMB × 1024. -/
theorem C7_sums_within_capacity (d : Disk) (hd : d ∈ disks) :
    partitionSumKB d ≤ d.SizeMB * 1000 ∧ partitionSumKB d ≤ d.SizeMB * 1024 :=
  dataset_sums_within_capacity d hd

/-- C7 amended at a concrete input: disk C holds 8500 KB of partitions against
20000 KB (or 20480 KB) of capacity. -/
theorem C7_sums_within_capacity_witness :
    disks.get ⟨2, by decide⟩ ∈ disks ∧
    partitionSumKB (disks.get ⟨2, by decide⟩) = 8500 ∧
    partitionSumKB (disks.get ⟨2, by decide⟩) ≤ (disks.get ⟨2, by decide⟩).SizeMB * 1000 ∧
    partitionSumKB (disks.get ⟨2, by decide⟩) ≤ (disks.get ⟨2, by decide⟩).SizeMB * 1024 :=
  ⟨by decide, by decide, C7_sums_within_capacity (disks.get ⟨2, by decide⟩) (by decide)⟩

/-- C8: within every disk of the dataset the partition names are pairwise
distinct. -/
theorem C8_partition_names_unique (d : Disk) (hd : d ∈ disks) :
    (d.Partitions.map (fun p => p.Name)).Nodup := by
  revert d
  decide

/-- C8 at a concrete input: the names of disk A are A1, A2, A3, A4. -/
theorem C8_partition_names_unique_witness :
    disks.get ⟨0, by decide⟩ ∈ disks ∧
    (disks.get ⟨0, by decide⟩).Partitions.map (fun p => p.Name) = ["A1", "A2", "A3", "A4"] ∧
    ((disks.get ⟨0, by decide⟩).Partitions.map (fun p => p.Name)).Nodup :=
  ⟨by decide, by decide, C8_partition_names_unique (disks.get ⟨0, by decide⟩) (by decide)⟩

/-- C9: every partition of every disk of the dataset has SizeKB > 0, Type `P`
or `E`, and Fit `FF`, `WF` or `BF`; hence so has every partition of any list
whose encoding `getPartitionsByDisk` writes (and on status 200 it writes one),
and every partition nested in any disk list whose encoding `getDisks` writes. -/
theorem C9_partitions_in_domain :
    (∀ d ∈ disks, ∀ p ∈ d.Partitions,
      0 < p.SizeKB ∧ (p.Typ = "P" ∨ p.Typ = "E") ∧
        (p.Fit = "FF" ∨ p.Fit = "WF" ∨ p.Fit = "BF")) ∧
    (∀ (h : Header) (r : Request),
      (getPartitionsByDisk (ResponseWriter.fresh h) r).status = 200 →
        ∃ ps, (getPartitionsByDisk (ResponseWriter.fresh h) r).body = [marshalPartitions ps]) ∧
    (∀ (h : Header) (r : Request) (ps : List Partition),
      (getPartitionsByDisk (ResponseWriter.fresh h) r).body = [marshalPartitions ps] →
        ∀ p ∈ ps,
          0 < p.SizeKB ∧ (p.Typ = "P" ∨ p.Typ = "E") ∧
            (p.Fit = "FF" ∨ p.Fit = "WF" ∨ p.Fit = "BF")) ∧
    (∀ (h : Header) (r : Request) (ds : List Disk),
      (getDisks (ResponseWriter.fresh h) r).body = [marshalDisks ds] →
        ∀ d ∈ ds, ∀ p ∈ d.Partitions,
          0 < p.SizeKB ∧ (p.Typ = "P" ∨ p.Typ = "E") ∧
            (p.Fit = "FF" ∨ p.Fit = "WF" ∨ p.Fit = "BF")) := by
  refine ⟨dataset_in_domain, ?_, ?_, ?_⟩
  · intro h r hst
    rcases getPartitionsByDisk_cases h r with ⟨d, -, hw⟩ | ⟨-, hw⟩
    · exact ⟨d.Partitions, by rw [hw]; rfl⟩
    · rw [hw] at hst
      exact absurd hst (by simp [notFoundResponse])
  · intro h r ps hb
    rcases getPartitionsByDisk_cases h r with ⟨d, hf, hw⟩ | ⟨-, hw⟩
    · rw [hw] at hb
      simp only [okResponse, List.cons.injEq, and_true] at hb
      have hps : d.Partitions = ps := marshalPartitions_injective hb
      subst hps
      exact dataset_in_domain d (find_some_mem _ d hf).1
    · rw [hw] at hb
      simp only [notFoundResponse, List.cons.injEq, and_true] at hb
      exact absurd hb.symm (marshalPartitions_ne_notFoundDoc ps)
  · intro h r ds hb
    rw [getDisks_eq] at hb
    simp only [List.cons.injEq, and_true] at hb
    have hds : disks = ds := marshalDisks_injective hb
    subst hds
    exact dataset_in_domain

/-- C10: every response of `getDisks` and of `getPartitionsByDisk`, whatever the
request and whichever branch is taken, has its status line written with the
header `Content-Type` holding the single value `application/json`. -/
theorem C10_content_type_json (h : Header) (r : Request) :
    ((getDisks (ResponseWriter.fresh h) r).wroteHeader = true ∧
      (getDisks (ResponseWriter.fresh h) r).sent.lookup "Content-Type" =
        some ["application/json"] ∧
      (getDisks (ResponseWriter.fresh h) r).sent.Get "Content-Type" = "application/json") ∧
    ((getPartitionsByDisk (ResponseWriter.fresh h) r).wroteHeader = true ∧
      (getPartitionsByDisk (ResponseWriter.fresh h) r).sent.lookup "Content-Type" =
        some ["application/json"] ∧
      (getPartitionsByDisk (ResponseWriter.fresh h) r).sent.Get "Content-Type" =
        "application/json") := by
  refine ⟨?_, ?_⟩
  · rw [getDisks_eq]
    exact ⟨rfl, header_lookup_set h _ _, header_get_set h _ _⟩
  · rcases getPartitionsByDisk_cases h r with ⟨d, -, hw⟩ | ⟨-, hw⟩
    · rw [hw]
      exact ⟨rfl, header_lookup_set h _ _, header_get_set h _ _⟩
    · rw [hw]
      exact ⟨rfl, header_lookup_set h _ _, header_get_set h _ _⟩

end Borrador
